import Mathlib

set_option maxHeartbeats 1600000
set_option maxRecDepth 40000
set_option linter.unnecessarySeqFocus false

/-!
Verification development for the release-aggregation server.

The development shallowly embeds the two source files:

* `src/server/server.go` (package `server`): the sync engine
  (`refreshCache` over a `buildMap` cache with a `mostRecentBuild`
  cursor), the signing salt (`randStringRunes`, `letterRunes`), the
  token gate (`tokenMiddleware`, `getHash`) and the route table of
  `NewServer`.
* `src/unnamed/part_000` (package `yolosvc`): `BuildList` (two-stage
  artifact-kind filter and the creation-time sort) and
  `ArtifactDownloader` (driver dispatch).

Modelling conventions: Go `time.Time` values are natural numbers, the
zero time is `0` and `t1.After(t2)` is `t2 < t1`; Go maps keyed by
`int` are association lists with Go-map assignment semantics; the
upstream paginated build-listing API is a function from page index to
`Except` (an external collaborator); `crypto/md5` hex digesting is an
abstract function `md5hex : String → String` (an external library);
`rand.Intn(len(letterRunes))` draws are a stream `Nat → Fin 52`.
-/

namespace Circleci

/-- One upstream CI build record as returned by the paginated
build-listing API (`circleci.Build` as used by `server.go`): the build
number and the optional start/stop timestamps. -/
structure Build where
  buildNum : Int
  startTime : Option Nat
  stopTime : Option Nat
deriving DecidableEq

end Circleci

namespace ReleaseServer

/-- The cache's build map, `type buildMap map[int]*circleci.Build`,
modelled as an association list from build number to build record. -/
abbrev BuildMap := List (Int × Circleci.Build)

/-- Go map assignment `m[k] = v`: replace the entry when the key is
present, otherwise add it. -/
def BuildMap.insert (m : BuildMap) (k : Int) (v : Circleci.Build) : BuildMap :=
  if m.any (fun p => p.1 == k) then m.map (fun p => if p.1 == k then (k, v) else p)
  else m ++ [(k, v)]

/-- The keys of a build map. -/
def BuildMap.keys (m : BuildMap) : List Int := m.map (fun p => p.1)

/-- The shared cache (`type Cache struct`): the published build map and
the sync cursor `mostRecentBuild` (zero-valued at process start). -/
structure Cache where
  builds : BuildMap
  mostRecentBuild : Nat
deriving DecidableEq

/-- The cold loop's per-page cursor pass: for every build whose
`StopTime` is non-nil and after the running value, advance it
(`if build.StopTime != nil && build.StopTime.After(mostRecentBuild)`). -/
def stopFold (builds : List Circleci.Build) (cur : Nat) : Nat :=
  builds.foldl
    (fun m b =>
      match b.stopTime with
      | some t => if m < t then t else m
      | none => m)
    cur

/-- The maximum stop time over a list of builds, starting from the zero
time. -/
def maxStopTime (builds : List Circleci.Build) : Nat := stopFold builds 0

/-- The cold loop's per-page recording pass:
`for _, build := range builds { allBuilds[build.BuildNum] = build }`. -/
def recordPage (m : BuildMap) (builds : List Circleci.Build) : BuildMap :=
  builds.foldl (fun acc b => BuildMap.insert acc b.buildNum b) m

/-- Outcome of the cold (first-fill) page loop of `refreshCache`:
the shared cache as left by the per-page publications, the local
`allBuilds` accumulator and `mostRecentBuild` running cursor, the
number of upstream page fetches made, the build maps published to the
shared cache inside the loop (in order), and the error, if any. -/
structure ColdOut (ε : Type) where
  shared : Cache
  acc : BuildMap
  cur : Nat
  fetches : Nat
  trace : List BuildMap
  err : Option ε

/-- The cold-state page loop of `refreshCache`
(`for page := 0; page < 20; page++`), fuelled by the remaining page
budget. Each iteration fetches one page of up to 100 records
(`s.circleClient.Builds("", "", 100, page*100)`); an error aborts the
loop at once; otherwise the cursor and accumulator are folded over the
page, the loop breaks after a short page (`len(builds) < 100`), and a
full page is followed by publishing the accumulator to the shared
cache's `builds` field (under the mutex) before the next iteration. -/
def coldLoop (fetch : Nat → Except ε (List Circleci.Build)) :
    Nat → Nat → Cache → BuildMap → Nat → ColdOut ε
  | 0, _, sh, acc, cur => ⟨sh, acc, cur, 0, [], none⟩
  | fuel+1, page, sh, acc, cur =>
    match fetch page with
    | .error e => ⟨sh, acc, cur, 1, [], some e⟩
    | .ok builds =>
      let cur' := stopFold builds cur
      let acc' := recordPage acc builds
      if builds.length < 100 then ⟨sh, acc', cur', 1, [], none⟩
      else
        let sh' := { sh with builds := acc' }
        let r := coldLoop fetch fuel (page+1) sh' acc' cur'
        ⟨r.shared, r.acc, r.cur, r.fetches + 1, acc' :: r.trace, r.err⟩

/-- The warm loop's update time of a record: the stop time when
present, else the start time (`updateTime := build.StartTime; if
build.StopTime != nil { updateTime = build.StopTime }`); `none` when
the record has neither and is skipped. -/
def updateTimeOf (b : Circleci.Build) : Option Nat :=
  match b.stopTime with
  | some t => some t
  | none => b.startTime

/-- One step of the warm-state walk of `refreshCache` over
`(allBuilds, mostRecentBuild, changed)`: skip a record with neither
timestamp; advance the running cursor when the update time is after it;
merge the record and count it as changed when the update time is after
`previousMostRecentBuild`. -/
def warmStep (prev : Nat) (st : BuildMap × Nat × Nat) (b : Circleci.Build) :
    BuildMap × Nat × Nat :=
  match updateTimeOf b with
  | none => st
  | some t =>
    let cur' := if st.2.1 < t then t else st.2.1
    if prev < t then (BuildMap.insert st.1 b.buildNum b, cur', st.2.2 + 1)
    else (st.1, cur', st.2.2)

/-- Outcome of one `refreshCache` cycle: the shared cache after the
cycle, the warm-state changed count, the number of upstream page
fetches made, the build maps published to the shared cache during the
cycle (in order, the final publication included), and the returned
error, if any. -/
structure SyncResult (ε : Type) where
  cache : Cache
  changed : Nat
  fetches : Nat
  trace : List BuildMap
  err : Option ε

/-- The sync cycle `func (s *Server) refreshCache() error`. Cold state
(`s.cache.mostRecentBuild.IsZero()`): run the page loop from a fresh
accumulator, then publish map and cursor; a loop error is returned with
the shared cache as the per-page publications left it. Warm state:
fetch the single most recent page (`s.circleClient.Builds("", "", 100, 0)`),
walk it oldest-to-newest (`for i := len(builds) - 1; i >= 0; i--`) with
`warmStep` over the previous cursor; when nothing changed the cycle
returns at once leaving the cache untouched, otherwise the merged map
and advanced cursor are published. -/
def refreshCache (fetch : Nat → Except ε (List Circleci.Build)) (c : Cache) :
    SyncResult ε :=
  if c.mostRecentBuild = 0 then
    let r := coldLoop fetch 20 0 c [] c.mostRecentBuild
    match r.err with
    | some e => ⟨r.shared, 0, r.fetches, r.trace, some e⟩
    | none => ⟨⟨r.acc, r.cur⟩, 0, r.fetches, r.trace ++ [r.acc], none⟩
  else
    match fetch 0 with
    | .error e => ⟨c, 0, 1, [], some e⟩
    | .ok builds =>
      let st := builds.reverse.foldl (warmStep c.mostRecentBuild) (c.builds, c.mostRecentBuild, 0)
      if st.2.2 = 0 then ⟨c, 0, 1, [], none⟩
      else ⟨⟨st.1, st.2.1⟩, st.2.2, 1, [st.1], none⟩

/-- A record is merged (and counted as changed) by the warm walk
exactly when it has an update time and that time is after the previous
cursor value. -/
def eligible (prev : Nat) (b : Circleci.Build) : Bool :=
  match updateTimeOf b with
  | some t => decide (prev < t)
  | none => false

/-- The warm walk's cursor step, in isolation: take the update time
when it is after the running value. -/
def updMax (cur : Nat) (b : Circleci.Build) : Nat :=
  match updateTimeOf b with
  | some t => if cur < t then t else cur
  | none => cur

/-- The maximum update time over a list of records, starting from the
zero time; records with neither timestamp do not contribute. -/
def maxUpdateTime (builds : List Circleci.Build) : Nat := builds.foldl updMax 0

/-- The rune alphabet of the salt generator,
`var letterRunes = []rune("abc...XYZ")`. -/
def letterRunes : List Char :=
  "abcdefghijklmnopqrstuvwxyzABCDEFGHIJKLMNOPQRSTUVWXYZ".toList

/-- The salt generator `randStringRunes(n)`: draw `n` runes from
`letterRunes` using the process RNG, modelled as the draw stream
`picks` (each `rand.Intn(len(letterRunes))` is one draw). -/
def randStringRunes (picks : Nat → Fin letterRunes.length) (n : Nat) : String :=
  String.mk ((List.range n).map (fun i => letterRunes.get (picks i)))

/-- The salt a freshly constructed server carries:
`randStr := randStringRunes(10); ... salt: randStr` in `NewServer`. -/
def newServerSalt (picks : Nat → Fin letterRunes.length) : String :=
  randStringRunes picks 10

/-- The token signer `func (s *Server) getHash(id string) string`,
`fmt.Sprintf("%x", md5.Sum([]byte(id+s.salt)))`, over an abstract hex
digest `md5hex` for the external `crypto/md5`. -/
def getHash (md5hex : String → String) (salt id : String) : String :=
  md5hex (id ++ salt)

/-- One alternative of the `tokenPaths` pattern, `^pre.+$` in Go RE2
(no multiline flag): the whole text is the prefix followed by at least
one character, none of which is a newline. -/
def matchTokenAlt (pre p : List Char) : Bool :=
  pre.isPrefixOf p && decide (pre.length < p.length)
    && (p.drop pre.length).all (fun ch => ch != '\n')

/-- The token gate's route pattern set, `regexp.MustCompile(
"^/auth/ipa/build/.+$|^/auth/dmg/build/.+$|^/auth/apk/build/.+$|^/auth/itms/release/.+$")`. -/
def tokenPathsMatch (p : String) : Bool :=
  matchTokenAlt "/auth/ipa/build/".toList p.toList
  || matchTokenAlt "/auth/dmg/build/".toList p.toList
  || matchTokenAlt "/auth/apk/build/".toList p.toList
  || matchTokenAlt "/auth/itms/release/".toList p.toList

/-- The accept decision of `tokenMiddleware`: on a route whose path
matches `tokenPaths`, the handler runs only when the `:token` segment
is non-empty and equals `getHash` of the `*` remainder segment
(otherwise 401); on any other route the handler runs unconditionally. -/
def tokenGateAllows (md5hex : String → String) (salt route token rest : String) : Bool :=
  if tokenPathsMatch route then
    !(token == "") && (getHash md5hex salt rest == token)
  else
    true

end ReleaseServer

namespace Yolopb

/-- The artifact driver tag (`yolopb.Driver`): which upstream backend
produced and hosts the artifact. -/
inductive Driver where
  | unknownDriver
  | buildkite
  | circleci
  | bintray
deriving DecidableEq

/-- An artifact entity (`yolopb.Artifact`), with the fields `BuildList`
and `ArtifactDownloader` read: the kind tag used for filtering, the
driver tag used for dispatch, the opaque upstream download URL, the
staging path, size, MIME type, and the signed download URL the query
layer annotates. -/
structure Artifact where
  kind : Int
  driver : Driver
  downloadURL : String
  localPath : String
  fileSize : Int
  mimeType : String
  dlSignedUrl : String
deriving DecidableEq

/-- A build entity (`yolopb.Build`) as the query layer reads it: the
creation timestamp (optional) and the owned artifact collection. -/
structure Build where
  createdAt : Option Nat
  hasArtifacts : List Artifact
deriving DecidableEq

end Yolopb

namespace Yolosvc

/-- Modelled from the spec: the per-build `Build.Cleanup()` call of
`BuildList` lives in the `yolopb` package, outside the repository files
given; the spec ascribes no observable behaviour to it (its "post-load
cleanup step" is the in-source kind refiltering, and a Build's
`CreatedAt` "is set once at ingestion and never mutated"), so it is
modelled as the identity. -/
def cleanup (b : Yolopb.Build) : Yolopb.Build := b

/-- Modelled from the spec: `Build.AddSignedURLs(salt)` lives in the
`yolopb` package, outside the repository files given; per the spec
"every Build's Artifacts are annotated with signed download URLs", so
it is modelled as annotating each artifact with the signed URL
`sgn` computes for it, leaving every other field unchanged. -/
def addSignedURLs (sgn : Yolopb.Artifact → String) (b : Yolopb.Build) : Yolopb.Build :=
  { b with hasArtifacts := b.hasArtifacts.map (fun a => { a with dlSignedUrl := sgn a }) }

/-- Insertion of one element into a list ordered by the comparator
`less` (element `x` goes before the first element `y` with
`less x y`). -/
def insertBy (less : α → α → Bool) (x : α) : List α → List α
  | [] => [x]
  | y :: ys => if less x y then x :: y :: ys else y :: insertBy less x ys

/-- The model of Go's `sort.Slice` over a comparator: a comparison
sort producing an order with no `less`-inversions (a deterministic
stand-in for the standard library's unstable sort). -/
def sortSlice (less : α → α → Bool) : List α → List α
  | [] => []
  | x :: xs => insertBy less x (sortSlice less xs)

/-- The `sort.Slice` comparator of `BuildList`: report `i` before `j`
when `j`'s timestamp is absent, never when (only) `i`'s is absent, and
otherwise when `i`'s creation time is after `j`'s. The `Builds[j] ==
nil` guard of the source is dead at this call site (every entry is
`&builds[i]`), so only the `CreatedAt == nil` tests are modelled. -/
def buildLess (i j : Yolopb.Build) : Bool :=
  match j.createdAt with
  | none => true
  | some tj =>
    match i.createdAt with
    | none => false
    | some ti => decide (tj < ti)

/-- The post-load pipeline of `BuildList` over the builds the entity
store returned (`loaded`; the Cayley query itself is the external
store): per build, `Cleanup`, then — when a kind filter was requested
(`req.ArtifactKind > 0`) — the in-memory refinement loop dropping every
artifact whose kind differs from the request, then `AddSignedURLs`;
finally the `sort.Slice` by creation time. -/
def BuildList (artifactKind : Int) (sgn : Yolopb.Artifact → String)
    (loaded : List Yolopb.Build) : List Yolopb.Build :=
  let builds := loaded.map (fun b =>
    let b1 := cleanup b
    let b2 :=
      if 0 < artifactKind then
        { b1 with hasArtifacts := b1.hasArtifacts.filter (fun a => a.kind == artifactKind) }
      else b1
    addSignedURLs sgn b2)
  sortSlice buildLess builds

/-- The driver dispatch of `ArtifactDownloader` (the header writing
precedes it and is best-effort): Buildkite requires a configured client
(`svc.bkc`), else errors with "buildkite token required", and otherwise
streams through `bkc.Artifacts.DownloadArtifactByURL`; Bintray streams
through `bintray.DownloadContent`; every other driver errors with
"download not supported for this driver". The two backend streamers
are external collaborators, passed as functions of the download URL;
`.ok d` records which backend streamed. -/
def ArtifactDownloader (bkcConfigured : Bool)
    (bkFetch btFetch : String → Except String Unit)
    (a : Yolopb.Artifact) : Except String Yolopb.Driver :=
  match a.driver with
  | .buildkite =>
    if bkcConfigured then
      match bkFetch a.downloadURL with
      | .ok _ => .ok .buildkite
      | .error e => .error e
    else .error "buildkite token required"
  | .bintray =>
    match btFetch a.downloadURL with
    | .ok _ => .ok .bintray
    | .error e => .error e
  | _ => .error "download not supported for this driver"

/-- The order `BuildList`'s comparator is meant to realise, as a
relation on adjacent-or-later pairs of the output: both timestamped —
descending creation time; a timestamped build never after one missing
its timestamp. -/
def goodBefore (a b : Yolopb.Build) : Prop :=
  match a.createdAt, b.createdAt with
  | some ta, some tb => tb ≤ ta
  | none, some _ => False
  | _, none => True

end Yolosvc

namespace Yolosvc

theorem mem_insertBy {less : α → α → Bool} {x y : α} :
    ∀ {l : List α}, y ∈ insertBy less x l ↔ y = x ∨ y ∈ l := by
  intro l
  induction l with
  | nil => simp [insertBy]
  | cons z zs ih =>
    by_cases h : less x z
    · simp [insertBy, h]
    · simp [insertBy, h, ih]
      tauto

theorem mem_sortSlice {less : α → α → Bool} {y : α} :
    ∀ {l : List α}, y ∈ sortSlice less l ↔ y ∈ l := by
  intro l
  induction l with
  | nil => simp [sortSlice]
  | cons z zs ih => simp [sortSlice, mem_insertBy, ih]

theorem pairwise_insertBy {R : α → α → Prop} {less : α → α → Bool}
    (h1 : ∀ x y, less x y = true → R x y)
    (h2 : ∀ x y, less x y = false → R y x)
    (ht : ∀ a b c', R a b → R b c' → R a c')
    (x : α) : ∀ {l : List α}, l.Pairwise R → (insertBy less x l).Pairwise R := by
  intro l
  induction l with
  | nil => intro _; simp [insertBy]
  | cons y ys ih =>
    intro hp
    rw [List.pairwise_cons] at hp
    by_cases h : less x y
    · rw [insertBy, if_pos h, List.pairwise_cons]
      refine ⟨?_, ?_⟩
      · intro z hz
        rcases List.mem_cons.mp hz with rfl | hz
        · exact h1 x z h
        · exact ht x y z (h1 x y h) (hp.1 z hz)
      · rw [List.pairwise_cons]
        exact hp
    · rw [insertBy, if_neg h, List.pairwise_cons]
      refine ⟨?_, ih hp.2⟩
      intro z hz
      rcases mem_insertBy.mp hz with rfl | hz
      · exact h2 z y (Bool.of_not_eq_true h)
      · exact hp.1 z hz

theorem pairwise_sortSlice {R : α → α → Prop} {less : α → α → Bool}
    (h1 : ∀ x y, less x y = true → R x y)
    (h2 : ∀ x y, less x y = false → R y x)
    (ht : ∀ a b c', R a b → R b c' → R a c') :
    ∀ (l : List α), (sortSlice less l).Pairwise R := by
  intro l
  induction l with
  | nil => simp [sortSlice]
  | cons x xs ih => exact pairwise_insertBy h1 h2 ht x ih

theorem buildLess_true_goodBefore (a b : Yolopb.Build)
    (h : buildLess a b = true) : goodBefore a b := by
  unfold buildLess at h
  unfold goodBefore
  cases ha : a.createdAt <;> cases hb : b.createdAt <;> simp [ha, hb] at h ⊢
  omega

theorem buildLess_false_goodBefore (a b : Yolopb.Build)
    (h : buildLess a b = false) : goodBefore b a := by
  unfold buildLess at h
  unfold goodBefore
  cases ha : a.createdAt <;> cases hb : b.createdAt <;> simp [ha, hb] at h ⊢
  omega

theorem goodBefore_trans (a b c' : Yolopb.Build)
    (h1 : goodBefore a b) (h2 : goodBefore b c') : goodBefore a c' := by
  unfold goodBefore at h1 h2 ⊢
  rcases ha : a.createdAt with _ | ta <;> rcases hb : b.createdAt with _ | tb <;>
    rcases hc : c'.createdAt with _ | tc <;> simp only [ha, hb, hc] at h1 h2 ⊢ <;>
    first
      | trivial
      | omega

end Yolosvc

namespace Yolosvc

/-- A build missing its creation timestamp, for the sort-order
counterexample. -/
def bNoCreated : Yolopb.Build := ⟨none, []⟩

/-- A build created at time 5, for the sort-order counterexample. -/
def bCreated5 : Yolopb.Build := ⟨some 5, []⟩

/-- Claim C2, counterexample. The claim orders a build with a missing
`CreatedAt` before every build that has a timestamp; on the code's
comparator (`sort.Slice` in `BuildList`) the missing-timestamp build
comes out after the timestamped one: `BuildList` on the two builds
returns the timestamped build first. -/
theorem buildList_missing_created_sorts_last :
    BuildList 0 (fun _ => "") [bNoCreated, bCreated5] = [bCreated5, bNoCreated]
    ∧ bNoCreated.createdAt = none ∧ bCreated5.createdAt = some 5 := by
  refine ⟨by decide, rfl, rfl⟩

/-- Claim C2, amended: in the sequence `BuildList` returns, whenever
build `A` appears before build `B`, either `B` has no timestamp, or
both are timestamped with `A.createdAt ≥ B.createdAt`; equivalently,
creation times are descending and a build missing its timestamp is
ordered after (not before) every timestamped build. -/
theorem buildList_sorted_created_desc (artifactKind : Int)
    (sgn : Yolopb.Artifact → String) (loaded : List Yolopb.Build) :
    (BuildList artifactKind sgn loaded).Pairwise goodBefore := by
  unfold BuildList
  exact pairwise_sortSlice buildLess_true_goodBefore buildLess_false_goodBefore
    goodBefore_trans _

/-- Claim C4: with a positive artifact-kind filter, every artifact in
every build `BuildList` returns has exactly the requested kind — the
in-memory refinement step drops every artifact whose kind differs from
the filter, and neither the signed-URL annotation nor the sort
reintroduces one. -/
theorem buildList_filter_precision (artifactKind : Int)
    (sgn : Yolopb.Artifact → String) (loaded : List Yolopb.Build)
    (b : Yolopb.Build) (a : Yolopb.Artifact)
    (hK : 0 < artifactKind) (hb : b ∈ BuildList artifactKind sgn loaded)
    (ha : a ∈ b.hasArtifacts) : a.kind = artifactKind := by
  unfold BuildList at hb
  rw [mem_sortSlice] at hb
  rcases List.mem_map.mp hb with ⟨b0, _, rfl⟩
  simp only [cleanup, if_pos hK, addSignedURLs] at ha
  rcases List.mem_map.mp ha with ⟨a0, ha0, rfl⟩
  have := List.of_mem_filter ha0
  simpa using this

/-- Witness for the artifact-kind filter: with filter kind 2 over a
store answer holding artifacts of kinds 2 and 3, the returned build's
one artifact has kind 2. -/
def artKind2 : Yolopb.Artifact := ⟨2, .bintray, "u2", "p2", 1, "m2", ""⟩

/-- An artifact of kind 3 that the refinement must drop. -/
def artKind3 : Yolopb.Artifact := ⟨3, .bintray, "u3", "p3", 1, "m3", ""⟩

/-- The build the filter-precision witness loads from the store. -/
def loadedKindsBuild : Yolopb.Build := ⟨some 1, [artKind2, artKind3]⟩

/-- The build as `BuildList 2` returns it: only the kind-2 artifact,
annotated with the witness's signing function. -/
def filteredKindsBuild : Yolopb.Build :=
  ⟨some 1, [{ artKind2 with dlSignedUrl := "signed" }]⟩

theorem buildList_filter_precision_witness :
    (0 < (2 : Int)
      ∧ filteredKindsBuild ∈ BuildList 2 (fun _ => "signed") [loadedKindsBuild]
      ∧ { artKind2 with dlSignedUrl := "signed" } ∈ filteredKindsBuild.hasArtifacts)
    ∧ ({ artKind2 with dlSignedUrl := "signed" } : Yolopb.Artifact).kind = 2 :=
  ⟨⟨by decide, by decide, by decide⟩,
    buildList_filter_precision 2 (fun _ => "signed") [loadedKindsBuild]
      filteredKindsBuild { artKind2 with dlSignedUrl := "signed" }
      (by decide) (by decide) (by decide)⟩

end Yolosvc

namespace ReleaseServer

theorem ite_lt_eq_max (c t : Nat) : (if c < t then t else c) = max c t := by
  rcases Nat.lt_or_ge c t with h | h
  · rw [if_pos h, Nat.max_eq_right (Nat.le_of_lt h)]
  · rw [if_neg (Nat.not_lt.mpr h), Nat.max_eq_left h]

theorem updMax_none (cur : Nat) (b : Circleci.Build)
    (h : updateTimeOf b = none) : updMax cur b = cur := by
  unfold updMax; rw [h]

theorem updMax_some (cur t : Nat) (b : Circleci.Build)
    (h : updateTimeOf b = some t) : updMax cur b = max cur t := by
  unfold updMax; rw [h]; exact ite_lt_eq_max cur t

theorem updMax_ge (cur : Nat) (b : Circleci.Build) : cur ≤ updMax cur b := by
  cases hu : updateTimeOf b with
  | none => rw [updMax_none cur b hu]
  | some t => rw [updMax_some cur t b hu]; exact Nat.le_max_left _ _

theorem foldl_updMax_ge : ∀ (l : List Circleci.Build) (cur : Nat),
    cur ≤ l.foldl updMax cur := by
  intro l
  induction l with
  | nil => intro cur; exact Nat.le_refl _
  | cons b rest ih =>
    intro cur
    exact Nat.le_trans (updMax_ge cur b) (ih (updMax cur b))

theorem updMax_max (a b : Nat) (x : Circleci.Build) :
    updMax (max a b) x = max a (updMax b x) := by
  cases hu : updateTimeOf x with
  | none => rw [updMax_none _ _ hu, updMax_none _ _ hu]
  | some t => rw [updMax_some _ t _ hu, updMax_some _ t _ hu, Nat.max_assoc]

theorem foldl_updMax_max : ∀ (l : List Circleci.Build) (a b : Nat),
    l.foldl updMax (max a b) = max a (l.foldl updMax b) := by
  intro l
  induction l with
  | nil => intro a b; rfl
  | cons x rest ih =>
    intro a b
    rw [List.foldl_cons, List.foldl_cons, updMax_max, ih]

theorem foldl_updMax_reverse : ∀ (l : List Circleci.Build) (a : Nat),
    l.reverse.foldl updMax a = l.foldl updMax a := by
  intro l
  induction l with
  | nil => intro a; rfl
  | cons x rest ih =>
    intro a
    rw [List.reverse_cons, List.foldl_append, ih, List.foldl_cons]
    have ha : a = max a 0 := (Nat.max_zero a).symm
    have key : ∀ c : Nat, rest.foldl updMax c = max c (rest.foldl updMax 0) := by
      intro c
      calc rest.foldl updMax c = rest.foldl updMax (max c 0) := by rw [Nat.max_zero]
        _ = max c (rest.foldl updMax 0) := foldl_updMax_max rest c 0
    rw [List.foldl_cons, List.foldl_nil, key a, key (updMax a x)]
    cases hu : updateTimeOf x with
    | none => rw [updMax_none _ _ hu, updMax_none _ _ hu]
    | some t =>
      rw [updMax_some _ t _ hu, updMax_some _ t _ hu]
      rw [Nat.max_assoc, Nat.max_assoc, Nat.max_comm (rest.foldl updMax 0) t]

theorem mem_le_foldl_updMax {b : Circleci.Build} {t : Nat}
    (hb : updateTimeOf b = some t) :
    ∀ {l : List Circleci.Build}, b ∈ l → ∀ a, t ≤ l.foldl updMax a := by
  intro l
  induction l with
  | nil => intro h; exact absurd h (List.not_mem_nil b)
  | cons x rest ih =>
    intro hmem a
    rcases List.mem_cons.mp hmem with rfl | hmem
    · have h1 : t ≤ updMax a b := by
        rw [updMax_some a t b hb]; exact Nat.le_max_right _ _
      exact Nat.le_trans h1 (foldl_updMax_ge rest (updMax a b))
    · exact ih hmem (updMax a x)

theorem warmFold_changed (prev : Nat) :
    ∀ (l : List Circleci.Build) (m : BuildMap) (cur ch : Nat),
      (l.foldl (warmStep prev) (m, cur, ch)).2.2
        = ch + (l.filter (eligible prev)).length := by
  intro l
  induction l with
  | nil => intro m cur ch; simp
  | cons b rest ih =>
    intro m cur ch
    rw [List.foldl_cons]
    cases hu : updateTimeOf b with
    | none =>
      rw [show warmStep prev (m, cur, ch) b = (m, cur, ch) by unfold warmStep; rw [hu]]
      rw [ih, List.filter_cons_of_neg (by simp [eligible, hu])]
    | some t =>
      by_cases hlt : prev < t
      · rw [show warmStep prev (m, cur, ch) b
            = (BuildMap.insert m b.buildNum b, if cur < t then t else cur, ch + 1) by
          unfold warmStep; rw [hu]; simp [hlt]]
        rw [ih, List.filter_cons_of_pos (by simp [eligible, hu, hlt])]
        simp only [List.length_cons]
        omega
      · rw [show warmStep prev (m, cur, ch) b = (m, if cur < t then t else cur, ch) by
          unfold warmStep; rw [hu]; simp [hlt]]
        rw [ih, List.filter_cons_of_neg (by simp [eligible, hu, hlt])]

theorem warmFold_map (prev : Nat) :
    ∀ (l : List Circleci.Build) (m : BuildMap) (cur ch : Nat),
      (l.foldl (warmStep prev) (m, cur, ch)).1
        = (l.filter (eligible prev)).foldl
            (fun acc b => BuildMap.insert acc b.buildNum b) m := by
  intro l
  induction l with
  | nil => intro m cur ch; simp
  | cons b rest ih =>
    intro m cur ch
    rw [List.foldl_cons]
    cases hu : updateTimeOf b with
    | none =>
      rw [show warmStep prev (m, cur, ch) b = (m, cur, ch) by unfold warmStep; rw [hu]]
      rw [ih, List.filter_cons_of_neg (by simp [eligible, hu])]
    | some t =>
      by_cases hlt : prev < t
      · rw [show warmStep prev (m, cur, ch) b
            = (BuildMap.insert m b.buildNum b, if cur < t then t else cur, ch + 1) by
          unfold warmStep; rw [hu]; simp [hlt]]
        rw [ih, List.filter_cons_of_pos (by simp [eligible, hu, hlt]), List.foldl_cons]
      · rw [show warmStep prev (m, cur, ch) b = (m, if cur < t then t else cur, ch) by
          unfold warmStep; rw [hu]; simp [hlt]]
        rw [ih, List.filter_cons_of_neg (by simp [eligible, hu, hlt])]

theorem warmFold_cur (prev : Nat) :
    ∀ (l : List Circleci.Build) (m : BuildMap) (cur ch : Nat),
      (l.foldl (warmStep prev) (m, cur, ch)).2.1 = l.foldl updMax cur := by
  intro l
  induction l with
  | nil => intro m cur ch; simp
  | cons b rest ih =>
    intro m cur ch
    rw [List.foldl_cons, List.foldl_cons]
    cases hu : updateTimeOf b with
    | none =>
      rw [show warmStep prev (m, cur, ch) b = (m, cur, ch) by unfold warmStep; rw [hu]]
      rw [show updMax cur b = cur by unfold updMax; rw [hu]]
      exact ih m cur ch
    | some t =>
      by_cases hlt : prev < t
      · rw [show warmStep prev (m, cur, ch) b
            = (BuildMap.insert m b.buildNum b, if cur < t then t else cur, ch + 1) by
          unfold warmStep; rw [hu]; simp [hlt]]
        rw [show updMax cur b = if cur < t then t else cur by unfold updMax; rw [hu]]
        exact ih _ _ _
      · rw [show warmStep prev (m, cur, ch) b = (m, if cur < t then t else cur, ch) by
          unfold warmStep; rw [hu]; simp [hlt]]
        rw [show updMax cur b = if cur < t then t else cur by unfold updMax; rw [hu]]
        exact ih _ _ _

end ReleaseServer

namespace ReleaseServer

theorem eligible_elim {prev : Nat} {b : Circleci.Build}
    (h : eligible prev b = true) :
    ∃ t, updateTimeOf b = some t ∧ prev < t := by
  unfold eligible at h
  cases hu : updateTimeOf b with
  | none => rw [hu] at h; exact absurd h (by simp)
  | some t =>
    rw [hu] at h
    exact ⟨t, rfl, of_decide_eq_true h⟩

/-- Claim C5: in warm state (non-zero cursor), a sync cycle fetches
exactly one page and reports no error; the changed count is exactly the
number of page records whose update time (stop if present, else start)
is after the previous cursor — records with neither timestamp are
skipped; the resulting map is the previous map with exactly the
eligible records merged, walked oldest-to-newest (the fetched page
reversed); when anything changed the published cursor is the maximum
update time over the page's records; when nothing changed the cache is
left untouched. -/
theorem refreshCache_warm_cycle {ε : Type}
    (fetch : Nat → Except ε (List Circleci.Build)) (c : Cache)
    (page : List Circleci.Build)
    (hwarm : c.mostRecentBuild ≠ 0) (hfetch : fetch 0 = Except.ok page) :
    (refreshCache fetch c).err = none
    ∧ (refreshCache fetch c).fetches = 1
    ∧ (refreshCache fetch c).changed
        = (page.filter (eligible c.mostRecentBuild)).length
    ∧ (refreshCache fetch c).cache.builds
        = (page.reverse.filter (eligible c.mostRecentBuild)).foldl
            (fun acc b => BuildMap.insert acc b.buildNum b) c.builds
    ∧ ((refreshCache fetch c).changed ≠ 0 →
        (refreshCache fetch c).cache.mostRecentBuild = maxUpdateTime page)
    ∧ ((refreshCache fetch c).changed = 0 → (refreshCache fetch c).cache = c) := by
  have hE : refreshCache fetch c =
      (if (page.reverse.foldl (warmStep c.mostRecentBuild)
            (c.builds, c.mostRecentBuild, 0)).2.2 = 0 then ⟨c, 0, 1, [], none⟩
       else ⟨⟨(page.reverse.foldl (warmStep c.mostRecentBuild)
                (c.builds, c.mostRecentBuild, 0)).1,
              (page.reverse.foldl (warmStep c.mostRecentBuild)
                (c.builds, c.mostRecentBuild, 0)).2.1⟩,
             (page.reverse.foldl (warmStep c.mostRecentBuild)
                (c.builds, c.mostRecentBuild, 0)).2.2, 1,
             [(page.reverse.foldl (warmStep c.mostRecentBuild)
                (c.builds, c.mostRecentBuild, 0)).1], none⟩) := by
    unfold refreshCache
    rw [if_neg hwarm, hfetch]
  have hch : (page.reverse.foldl (warmStep c.mostRecentBuild)
      (c.builds, c.mostRecentBuild, 0)).2.2
      = (page.filter (eligible c.mostRecentBuild)).length := by
    rw [warmFold_changed c.mostRecentBuild page.reverse c.builds c.mostRecentBuild 0,
      List.filter_reverse, List.length_reverse, Nat.zero_add]
  by_cases h0 : (page.reverse.foldl (warmStep c.mostRecentBuild)
      (c.builds, c.mostRecentBuild, 0)).2.2 = 0
  · rw [hE, if_pos h0]
    have hflen : (page.filter (eligible c.mostRecentBuild)).length = 0 := by
      rw [← hch]; exact h0
    refine ⟨rfl, rfl, hflen.symm, ?_, fun h => absurd rfl h, fun _ => rfl⟩
    have hrev : page.reverse.filter (eligible c.mostRecentBuild) = [] := by
      rw [List.filter_reverse]
      rw [List.length_eq_zero] at hflen
      rw [hflen, List.reverse_nil]
    rw [hrev, List.foldl_nil]
  · rw [hE, if_neg h0]
    refine ⟨rfl, rfl, hch, warmFold_map c.mostRecentBuild page.reverse c.builds
        c.mostRecentBuild 0, ?_, fun h => absurd h h0⟩
    intro _
    show (page.reverse.foldl (warmStep c.mostRecentBuild)
        (c.builds, c.mostRecentBuild, 0)).2.1 = maxUpdateTime page
    rw [warmFold_cur c.mostRecentBuild page.reverse c.builds c.mostRecentBuild 0,
      foldl_updMax_reverse]
    have hkey : page.foldl updMax c.mostRecentBuild
        = max c.mostRecentBuild (maxUpdateTime page) := by
      calc page.foldl updMax c.mostRecentBuild
          = page.foldl updMax (max c.mostRecentBuild 0) := by rw [Nat.max_zero]
        _ = max c.mostRecentBuild (page.foldl updMax 0) :=
            foldl_updMax_max page c.mostRecentBuild 0
        _ = max c.mostRecentBuild (maxUpdateTime page) := rfl
    rw [hkey]
    have hne : page.filter (eligible c.mostRecentBuild) ≠ [] := by
      intro hnil
      rw [hch, hnil] at h0
      exact h0 rfl
    obtain ⟨b, hbmem⟩ := List.exists_mem_of_ne_nil _ hne
    have hbpage : b ∈ page := List.mem_of_mem_filter hbmem
    have hbel : eligible c.mostRecentBuild b = true := List.of_mem_filter hbmem
    obtain ⟨t, hu, hlt⟩ := eligible_elim hbel
    have hle : t ≤ maxUpdateTime page := mem_le_foldl_updMax hu hbpage 0
    exact Nat.max_eq_right (Nat.le_of_lt (Nat.lt_of_lt_of_le hlt hle))

end ReleaseServer

namespace ReleaseServer

/-- A warm cache with cursor 5 and an empty map, for the warm-cycle
witness. -/
def warmCache : Cache := ⟨[], 5⟩

/-- A record stopped at time 9 — newer than cursor 5, so merged. -/
def bStop9 : Circleci.Build := ⟨10, none, some 9⟩

/-- A record started at time 3 with no stop time — not newer than the
cursor, so not merged. -/
def bStart3 : Circleci.Build := ⟨11, some 3, none⟩

/-- A record with neither timestamp — skipped by the warm walk. -/
def bNoTimes : Circleci.Build := ⟨12, none, none⟩

/-- The page the warm-cycle witness fetches. -/
def warmPage : List Circleci.Build := [bStop9, bStart3, bNoTimes]

/-- The upstream of the warm-cycle witness: every fetch returns
`warmPage`. -/
def warmFetch : Nat → Except Unit (List Circleci.Build) :=
  fun _ => Except.ok warmPage

theorem refreshCache_warm_cycle_witness :
    (warmCache.mostRecentBuild ≠ 0 ∧ warmFetch 0 = Except.ok warmPage)
    ∧ ((refreshCache warmFetch warmCache).err = none
      ∧ (refreshCache warmFetch warmCache).fetches = 1
      ∧ (refreshCache warmFetch warmCache).changed
          = (warmPage.filter (eligible warmCache.mostRecentBuild)).length
      ∧ (refreshCache warmFetch warmCache).cache.builds
          = (warmPage.reverse.filter (eligible warmCache.mostRecentBuild)).foldl
              (fun acc b => BuildMap.insert acc b.buildNum b) warmCache.builds
      ∧ ((refreshCache warmFetch warmCache).changed ≠ 0 →
          (refreshCache warmFetch warmCache).cache.mostRecentBuild
            = maxUpdateTime warmPage)
      ∧ ((refreshCache warmFetch warmCache).changed = 0 →
          (refreshCache warmFetch warmCache).cache = warmCache)) :=
  ⟨⟨by decide, rfl⟩,
    refreshCache_warm_cycle warmFetch warmCache warmPage (by decide) rfl⟩

end ReleaseServer

namespace ReleaseServer

theorem coldLoop_step_err {ε : Type} (fetch : Nat → Except ε (List Circleci.Build))
    (fuel page : Nat) (sh : Cache) (acc : BuildMap) (cur : Nat) (e : ε)
    (hf : fetch page = Except.error e) :
    coldLoop fetch (fuel+1) page sh acc cur = ⟨sh, acc, cur, 1, [], some e⟩ := by
  simp [coldLoop, hf]

theorem coldLoop_step_short {ε : Type} (fetch : Nat → Except ε (List Circleci.Build))
    (fuel page : Nat) (sh : Cache) (acc : BuildMap) (cur : Nat)
    (builds : List Circleci.Build)
    (hf : fetch page = Except.ok builds) (hlen : builds.length < 100) :
    coldLoop fetch (fuel+1) page sh acc cur
      = ⟨sh, recordPage acc builds, stopFold builds cur, 1, [], none⟩ := by
  simp [coldLoop, hf, hlen]

theorem coldLoop_step_full {ε : Type} (fetch : Nat → Except ε (List Circleci.Build))
    (fuel page : Nat) (sh : Cache) (acc : BuildMap) (cur : Nat)
    (builds : List Circleci.Build)
    (hf : fetch page = Except.ok builds) (hlen : ¬ builds.length < 100) :
    coldLoop fetch (fuel+1) page sh acc cur
      = ⟨(coldLoop fetch fuel (page+1) { sh with builds := recordPage acc builds }
            (recordPage acc builds) (stopFold builds cur)).shared,
         (coldLoop fetch fuel (page+1) { sh with builds := recordPage acc builds }
            (recordPage acc builds) (stopFold builds cur)).acc,
         (coldLoop fetch fuel (page+1) { sh with builds := recordPage acc builds }
            (recordPage acc builds) (stopFold builds cur)).cur,
         (coldLoop fetch fuel (page+1) { sh with builds := recordPage acc builds }
            (recordPage acc builds) (stopFold builds cur)).fetches + 1,
         recordPage acc builds
           :: (coldLoop fetch fuel (page+1) { sh with builds := recordPage acc builds }
                (recordPage acc builds) (stopFold builds cur)).trace,
         (coldLoop fetch fuel (page+1) { sh with builds := recordPage acc builds }
            (recordPage acc builds) (stopFold builds cur)).err⟩ := by
  simp [coldLoop, hf, hlen]

theorem coldLoop_shared_cursor {ε : Type} (fetch : Nat → Except ε (List Circleci.Build)) :
    ∀ (fuel page : Nat) (sh : Cache) (acc : BuildMap) (cur : Nat),
      (coldLoop fetch fuel page sh acc cur).shared.mostRecentBuild
        = sh.mostRecentBuild := by
  intro fuel
  induction fuel with
  | zero => intro page sh acc cur; rfl
  | succ n ih =>
    intro page sh acc cur
    cases hf : fetch page with
    | error e => rw [coldLoop_step_err fetch n page sh acc cur e hf]
    | ok builds =>
      by_cases hlen : builds.length < 100
      · rw [coldLoop_step_short fetch n page sh acc cur builds hf hlen]
      · rw [coldLoop_step_full fetch n page sh acc cur builds hf hlen]
        exact ih (page+1) _ _ _

theorem stopFold_append (l1 l2 : List Circleci.Build) (cur : Nat) :
    stopFold (l1 ++ l2) cur = stopFold l2 (stopFold l1 cur) := by
  unfold stopFold
  rw [List.foldl_append]

theorem recordPage_append (m : BuildMap) (l1 l2 : List Circleci.Build) :
    recordPage m (l1 ++ l2) = recordPage (recordPage m l1) l2 := by
  unfold recordPage
  rw [List.foldl_append]

theorem insert_of_fresh (m : BuildMap) (k : Int) (v : Circleci.Build)
    (h : ∀ p ∈ m, p.1 ≠ k) : BuildMap.insert m k v = m ++ [(k, v)] := by
  have hno : ¬ (m.any (fun p => p.1 == k) = true) := by
    rw [List.any_eq_true]
    rintro ⟨p, hp, hpk⟩
    exact h p hp (by simpa using hpk)
  unfold BuildMap.insert
  rw [if_neg hno]

theorem recordPage_length :
    ∀ (builds : List Circleci.Build) (m : BuildMap),
      (BuildMap.keys m ++ builds.map (fun b => b.buildNum)).Nodup →
      (recordPage m builds).length = m.length + builds.length := by
  intro builds
  induction builds with
  | nil =>
    intro m _
    simp [recordPage]
  | cons b rest ih =>
    intro m h
    have hfresh : ∀ p ∈ m, p.1 ≠ b.buildNum := by
      intro p hp heq
      rw [List.map_cons, List.nodup_append] at h
      have hmem1 : p.1 ∈ BuildMap.keys m := List.mem_map_of_mem _ hp
      have hmem2 : p.1 ∈ b.buildNum :: rest.map (fun b' => b'.buildNum) := by
        rw [heq]
        exact List.mem_cons_self _ _
      exact h.2.2 hmem1 hmem2
    have hstep : recordPage m (b :: rest) = recordPage (m ++ [(b.buildNum, b)]) rest := by
      unfold recordPage
      rw [List.foldl_cons, insert_of_fresh m b.buildNum b hfresh]
    have hkeys : BuildMap.keys (m ++ [(b.buildNum, b)])
        = BuildMap.keys m ++ [b.buildNum] := by
      unfold BuildMap.keys
      rw [List.map_append]
      rfl
    have h' : (BuildMap.keys (m ++ [(b.buildNum, b)])
        ++ rest.map (fun b' => b'.buildNum)).Nodup := by
      rw [hkeys, List.append_assoc]
      exact h
    rw [hstep, ih (m ++ [(b.buildNum, b)]) h']
    simp only [List.length_append, List.length_cons, List.length_nil]
    omega

/-- Claim C7: after any sync cycle that reports no error (cold or
warm), the cursor is at least its pre-cycle value — the cursor never
moves backwards. -/
theorem refreshCache_cursor_monotone {ε : Type}
    (fetch : Nat → Except ε (List Circleci.Build)) (c : Cache)
    (h : (refreshCache fetch c).err = none) :
    c.mostRecentBuild ≤ (refreshCache fetch c).cache.mostRecentBuild := by
  by_cases h0 : c.mostRecentBuild = 0
  · rw [h0]
    exact Nat.zero_le _
  · cases hf : fetch 0 with
    | error e =>
      have hE : refreshCache fetch c = ⟨c, 0, 1, [], some e⟩ := by
        unfold refreshCache
        rw [if_neg h0, hf]
      rw [hE] at h
      exact absurd h (by simp)
    | ok page =>
      have hE : refreshCache fetch c =
          (if (page.reverse.foldl (warmStep c.mostRecentBuild)
                (c.builds, c.mostRecentBuild, 0)).2.2 = 0 then ⟨c, 0, 1, [], none⟩
           else ⟨⟨(page.reverse.foldl (warmStep c.mostRecentBuild)
                    (c.builds, c.mostRecentBuild, 0)).1,
                  (page.reverse.foldl (warmStep c.mostRecentBuild)
                    (c.builds, c.mostRecentBuild, 0)).2.1⟩,
                 (page.reverse.foldl (warmStep c.mostRecentBuild)
                    (c.builds, c.mostRecentBuild, 0)).2.2, 1,
                 [(page.reverse.foldl (warmStep c.mostRecentBuild)
                    (c.builds, c.mostRecentBuild, 0)).1], none⟩) := by
        unfold refreshCache
        rw [if_neg h0, hf]
      by_cases hch : (page.reverse.foldl (warmStep c.mostRecentBuild)
          (c.builds, c.mostRecentBuild, 0)).2.2 = 0
      · rw [hE, if_pos hch]
      · rw [hE, if_neg hch]
        show c.mostRecentBuild ≤ (page.reverse.foldl (warmStep c.mostRecentBuild)
            (c.builds, c.mostRecentBuild, 0)).2.1
        rw [warmFold_cur c.mostRecentBuild page.reverse c.builds c.mostRecentBuild 0]
        exact foldl_updMax_ge page.reverse c.mostRecentBuild

theorem refreshCache_cursor_monotone_witness :
    (refreshCache warmFetch warmCache).err = none
    ∧ warmCache.mostRecentBuild
        ≤ (refreshCache warmFetch warmCache).cache.mostRecentBuild :=
  ⟨by decide, refreshCache_cursor_monotone warmFetch warmCache (by decide)⟩

end ReleaseServer

namespace ReleaseServer

/-- Claim C6: a cold-state sync (cursor zero) whose upstream returns
pages of 100, 100 and 40 records with pairwise-distinct build numbers
makes exactly three upstream page fetches, stops at the short page,
publishes the accumulated map after every page (the two full pages
inside the loop, the final map with the cycle's closing publication),
ends with a 240-entry map, and sets the cursor to the maximum stop
time across all 240 records. -/
theorem refreshCache_cold_three_pages {ε : Type}
    (fetch : Nat → Except ε (List Circleci.Build)) (c : Cache)
    (p0 p1 p2 : List Circleci.Build)
    (hcold : c.mostRecentBuild = 0)
    (hf0 : fetch 0 = Except.ok p0) (hf1 : fetch 1 = Except.ok p1)
    (hf2 : fetch 2 = Except.ok p2)
    (hl0 : p0.length = 100) (hl1 : p1.length = 100) (hl2 : p2.length = 40)
    (hnodup : ((p0 ++ p1 ++ p2).map (fun b => b.buildNum)).Nodup) :
    (refreshCache fetch c).err = none
    ∧ (refreshCache fetch c).fetches = 3
    ∧ (refreshCache fetch c).trace
        = [recordPage [] p0, recordPage (recordPage [] p0) p1,
           recordPage (recordPage (recordPage [] p0) p1) p2]
    ∧ (refreshCache fetch c).cache.builds
        = recordPage (recordPage (recordPage [] p0) p1) p2
    ∧ (refreshCache fetch c).cache.builds.length = 240
    ∧ (refreshCache fetch c).cache.mostRecentBuild = maxStopTime (p0 ++ p1 ++ p2) := by
  have hnl0 : ¬ p0.length < 100 := by rw [hl0]; omega
  have hnl1 : ¬ p1.length < 100 := by rw [hl1]; omega
  have hsl2 : p2.length < 100 := by rw [hl2]; omega
  have E3 : coldLoop fetch 18 2
      { { c with builds := recordPage [] p0 }
          with builds := recordPage (recordPage [] p0) p1 }
      (recordPage (recordPage [] p0) p1)
      (stopFold p1 (stopFold p0 0))
      = ⟨{ { c with builds := recordPage [] p0 }
            with builds := recordPage (recordPage [] p0) p1 },
         recordPage (recordPage (recordPage [] p0) p1) p2,
         stopFold p2 (stopFold p1 (stopFold p0 0)), 1, [], none⟩ :=
    coldLoop_step_short fetch 17 2 _ _ _ p2 hf2 hsl2
  have E2 : coldLoop fetch 19 1 { c with builds := recordPage [] p0 }
      (recordPage [] p0) (stopFold p0 0)
      = ⟨{ { c with builds := recordPage [] p0 }
            with builds := recordPage (recordPage [] p0) p1 },
         recordPage (recordPage (recordPage [] p0) p1) p2,
         stopFold p2 (stopFold p1 (stopFold p0 0)), 2,
         [recordPage (recordPage [] p0) p1], none⟩ := by
    have h := coldLoop_step_full fetch 18 1 { c with builds := recordPage [] p0 }
      (recordPage [] p0) (stopFold p0 0) p1 hf1 hnl1
    rw [E3] at h
    exact h
  have E1 : coldLoop fetch 20 0 c [] 0
      = ⟨{ { c with builds := recordPage [] p0 }
            with builds := recordPage (recordPage [] p0) p1 },
         recordPage (recordPage (recordPage [] p0) p1) p2,
         stopFold p2 (stopFold p1 (stopFold p0 0)), 3,
         [recordPage [] p0, recordPage (recordPage [] p0) p1], none⟩ := by
    have h := coldLoop_step_full fetch 19 0 c [] 0 p0 hf0 hnl0
    rw [E2] at h
    exact h
  have hRC : refreshCache fetch c
      = ⟨⟨recordPage (recordPage (recordPage [] p0) p1) p2,
          stopFold p2 (stopFold p1 (stopFold p0 0))⟩, 0, 3,
         [recordPage [] p0, recordPage (recordPage [] p0) p1,
          recordPage (recordPage (recordPage [] p0) p1) p2], none⟩ := by
    unfold refreshCache
    rw [if_pos hcold, hcold, E1]
    rfl
  have hacc : recordPage (recordPage (recordPage [] p0) p1) p2
      = recordPage [] (p0 ++ p1 ++ p2) := by
    rw [recordPage_append, recordPage_append]
  have hlen240 : (recordPage (recordPage (recordPage [] p0) p1) p2).length = 240 := by
    rw [hacc, recordPage_length (p0 ++ p1 ++ p2) [] (by simpa using hnodup)]
    simp only [List.length_nil, List.length_append, hl0, hl1, hl2]
  have hcur : stopFold p2 (stopFold p1 (stopFold p0 0))
      = maxStopTime (p0 ++ p1 ++ p2) := by
    unfold maxStopTime
    rw [stopFold_append, stopFold_append]
  rw [hRC]
  exact ⟨rfl, rfl, rfl, rfl, hlen240, hcur⟩

end ReleaseServer

namespace ReleaseServer

/-- Build number `i`, stopped at time `i + 1`, for the cold-sync
witness. -/
def coldWitnessBuild (i : Nat) : Circleci.Build := ⟨Int.ofNat i, none, some (i+1)⟩

/-- The cold-sync witness's first full page: builds 0–99. -/
def coldPage0 : List Circleci.Build := (List.range 100).map coldWitnessBuild

/-- The cold-sync witness's second full page: builds 100–199. -/
def coldPage1 : List Circleci.Build :=
  (List.range 100).map (fun i => coldWitnessBuild (i + 100))

/-- The cold-sync witness's short page: builds 200–239. -/
def coldPage2 : List Circleci.Build :=
  (List.range 40).map (fun i => coldWitnessBuild (i + 200))

/-- The upstream of the cold-sync witness: pages 0, 1 and 2 as above,
any further page an error (never reached). -/
def coldFetch : Nat → Except String (List Circleci.Build) :=
  fun n =>
    if n = 0 then Except.ok coldPage0
    else if n = 1 then Except.ok coldPage1
    else if n = 2 then Except.ok coldPage2
    else Except.error "no page"

/-- The zero-valued cache of a freshly started process. -/
def coldCache : Cache := ⟨[], 0⟩

theorem coldPages_nodup :
    ((coldPage0 ++ coldPage1 ++ coldPage2).map (fun b => b.buildNum)).Nodup := by
  have hkeys : (coldPage0 ++ coldPage1 ++ coldPage2).map (fun b => b.buildNum)
      = (List.range 240).map Int.ofNat := by
    rw [show (240 : Nat) = 100 + 100 + 40 from rfl]
    rw [List.range_add (100 + 100) 40, List.range_add 100 100]
    unfold coldPage0 coldPage1 coldPage2 coldWitnessBuild
    simp [List.map_append, List.map_map, Function.comp_def, Int.ofNat_eq_natCast,
      Nat.cast_add, Nat.add_comm]
  rw [hkeys]
  exact (List.nodup_range 240).map (fun a b hab => Int.ofNat_inj.mp hab)

theorem refreshCache_cold_three_pages_witness :
    (coldCache.mostRecentBuild = 0
      ∧ coldFetch 0 = Except.ok coldPage0
      ∧ coldFetch 1 = Except.ok coldPage1
      ∧ coldFetch 2 = Except.ok coldPage2
      ∧ coldPage0.length = 100 ∧ coldPage1.length = 100 ∧ coldPage2.length = 40
      ∧ ((coldPage0 ++ coldPage1 ++ coldPage2).map (fun b => b.buildNum)).Nodup)
    ∧ ((refreshCache coldFetch coldCache).err = none
      ∧ (refreshCache coldFetch coldCache).fetches = 3
      ∧ (refreshCache coldFetch coldCache).trace
          = [recordPage [] coldPage0, recordPage (recordPage [] coldPage0) coldPage1,
             recordPage (recordPage (recordPage [] coldPage0) coldPage1) coldPage2]
      ∧ (refreshCache coldFetch coldCache).cache.builds
          = recordPage (recordPage (recordPage [] coldPage0) coldPage1) coldPage2
      ∧ (refreshCache coldFetch coldCache).cache.builds.length = 240
      ∧ (refreshCache coldFetch coldCache).cache.mostRecentBuild
          = maxStopTime (coldPage0 ++ coldPage1 ++ coldPage2)) :=
  ⟨⟨rfl, rfl, rfl, rfl, by decide, by decide, by decide, coldPages_nodup⟩,
    refreshCache_cold_three_pages coldFetch coldCache coldPage0 coldPage1 coldPage2
      rfl rfl rfl rfl (by decide) (by decide) (by decide) coldPages_nodup⟩

end ReleaseServer

namespace ReleaseServer

theorem refreshCache_cold_err_eq {ε : Type} (fetch : Nat → Except ε (List Circleci.Build))
    (c : Cache) (e' : ε) (h0 : c.mostRecentBuild = 0)
    (hcl : (coldLoop fetch 20 0 c [] c.mostRecentBuild).err = some e') :
    refreshCache fetch c
      = ⟨(coldLoop fetch 20 0 c [] c.mostRecentBuild).shared, 0,
         (coldLoop fetch 20 0 c [] c.mostRecentBuild).fetches,
         (coldLoop fetch 20 0 c [] c.mostRecentBuild).trace, some e'⟩ := by
  unfold refreshCache
  rw [if_pos h0]
  simp only [hcl]

/-- Claim C1, amended: when a sync cycle returns an upstream error, the
cursor is always unchanged; in warm state the whole cache (map and
cursor) is unchanged; and when the error comes from the cycle's first
upstream fetch — cold or warm — the whole cache is unchanged. (In cold
state an error on a later page retains the pages already published to
the shared map before the failure; the original claim's "map unchanged"
fails there, see the counterexample.) -/
theorem refreshCache_error_preserves {ε : Type}
    (fetch : Nat → Except ε (List Circleci.Build)) (c : Cache) (e : ε)
    (herr : (refreshCache fetch c).err = some e) :
    (refreshCache fetch c).cache.mostRecentBuild = c.mostRecentBuild
    ∧ (c.mostRecentBuild ≠ 0 → (refreshCache fetch c).cache = c)
    ∧ (fetch 0 = Except.error e → (refreshCache fetch c).cache = c) := by
  by_cases h0 : c.mostRecentBuild = 0
  · rcases hcl : (coldLoop fetch 20 0 c [] c.mostRecentBuild).err with _ | e'
    · have hnone : (refreshCache fetch c).err = none := by
        unfold refreshCache
        rw [if_pos h0]
        simp only [hcl]
      rw [hnone] at herr
      cases herr
    · have hE := refreshCache_cold_err_eq fetch c e' h0 hcl
      rw [hE]
      refine ⟨?_, fun hw => absurd h0 hw, fun hf0 => ?_⟩
      · exact coldLoop_shared_cursor fetch 20 0 c [] c.mostRecentBuild
      · have heq : some e' = some e := by
          rw [hE] at herr
          exact herr
        have hstep : coldLoop fetch 20 0 c [] c.mostRecentBuild
            = ⟨c, [], c.mostRecentBuild, 1, [], some e⟩ :=
          coldLoop_step_err fetch 19 0 c [] c.mostRecentBuild e hf0
        show (coldLoop fetch 20 0 c [] c.mostRecentBuild).shared = c
        rw [hstep]
  · cases hf : fetch 0 with
    | error e' =>
      have hE : refreshCache fetch c = ⟨c, 0, 1, [], some e'⟩ := by
        unfold refreshCache
        rw [if_neg h0, hf]
      rw [hE]
      exact ⟨rfl, fun _ => rfl, fun _ => rfl⟩
    | ok page =>
      have hnone : (refreshCache fetch c).err = none := by
        unfold refreshCache
        rw [if_neg h0, hf]
        show (if (page.reverse.foldl (warmStep c.mostRecentBuild)
              (c.builds, c.mostRecentBuild, 0)).2.2 = 0 then
            (⟨c, 0, 1, [], none⟩ : SyncResult ε)
          else ⟨⟨(page.reverse.foldl (warmStep c.mostRecentBuild)
                  (c.builds, c.mostRecentBuild, 0)).1,
                 (page.reverse.foldl (warmStep c.mostRecentBuild)
                  (c.builds, c.mostRecentBuild, 0)).2.1⟩,
                (page.reverse.foldl (warmStep c.mostRecentBuild)
                  (c.builds, c.mostRecentBuild, 0)).2.2, 1,
                [(page.reverse.foldl (warmStep c.mostRecentBuild)
                  (c.builds, c.mostRecentBuild, 0)).1], none⟩).err = none
        split <;> rfl
      rw [hnone] at herr
      cases herr

/-- The upstream of the failed-cold-cycle counterexample: the first
page is full (100 records), the second fetch fails. -/
def failFetch : Nat → Except String (List Circleci.Build) :=
  fun n => if n = 0 then Except.ok coldPage0 else Except.error "page 1 down"

/-- Claim C1, counterexample. Starting cold (empty map, zero cursor),
page 0 succeeds with 100 records and is published to the shared cache
inside the loop; the fetch of page 1 then fails and `refreshCache`
returns the error — but the shared map now holds the 100 published
records, so the cache after the failed cycle is not identical to the
cache before it. -/
theorem refreshCache_failed_cycle_retains_published_pages :
    (refreshCache failFetch coldCache).err = some "page 1 down"
    ∧ coldCache.builds.length = 0
    ∧ (refreshCache failFetch coldCache).cache.builds.length = 100
    ∧ ¬ ((refreshCache failFetch coldCache).cache = coldCache) :=
  ⟨by decide, by decide, by decide, by decide⟩

/-- The upstream of the warm-failure witness: every fetch fails. -/
def warmFailFetch : Nat → Except String (List Circleci.Build) :=
  fun _ => Except.error "upstream down"

theorem refreshCache_error_preserves_witness :
    ((refreshCache warmFailFetch warmCache).err = some "upstream down")
    ∧ ((refreshCache warmFailFetch warmCache).cache.mostRecentBuild
          = warmCache.mostRecentBuild
      ∧ (warmCache.mostRecentBuild ≠ 0 →
          (refreshCache warmFailFetch warmCache).cache = warmCache)
      ∧ (warmFailFetch 0 = Except.error "upstream down" →
          (refreshCache warmFailFetch warmCache).cache = warmCache)) :=
  ⟨by decide,
    refreshCache_error_preserves warmFailFetch warmCache "upstream down" (by decide)⟩

end ReleaseServer

namespace ReleaseServer

/-- Claim C3: on a token-gated route, the gate accepts exactly the
requests whose `:token` segment equals `getHash` of the path remainder
(the signature under the process salt); in particular a freshly signed
remainder always verifies, and any differing token is rejected with
401. The hypothesis that the digest is non-empty reflects `crypto/md5`:
`fmt.Sprintf("%x", md5.Sum(...))` is always 32 hex characters. -/
theorem tokenGate_accepts_iff_signature (md5hex : String → String)
    (salt route token rest : String)
    (hmatch : tokenPathsMatch route = true)
    (hne : getHash md5hex salt rest ≠ "") :
    tokenGateAllows md5hex salt route token rest = true
      ↔ token = getHash md5hex salt rest := by
  unfold tokenGateAllows
  rw [if_pos hmatch]
  constructor
  · intro h
    have h2 := (Bool.and_eq_true _ _).mp h
    exact (eq_of_beq h2.2).symm
  · intro h
    subst h
    apply (Bool.and_eq_true _ _).mpr
    refine ⟨?_, beq_self_eq_true _⟩
    rw [Bool.not_eq_true', beq_eq_false_iff_ne]
    exact hne

/-- The digest function of the token-gate witnesses: a concrete stand-in
for the external hex digest (injective and never empty on these
inputs). -/
def hashId : String → String := fun s => "h" ++ s

theorem tokenGate_accepts_iff_signature_witness :
    (tokenPathsMatch "/auth/ipa/build/:token/*" = true
      ∧ getHash hashId "salt" "x" ≠ "")
    ∧ (tokenGateAllows hashId "salt" "/auth/ipa/build/:token/*"
          (getHash hashId "salt" "x") "x" = true
        ↔ getHash hashId "salt" "x" = getHash hashId "salt" "x") :=
  ⟨⟨by decide, by decide⟩,
    tokenGate_accepts_iff_signature hashId "salt" "/auth/ipa/build/:token/*"
      (getHash hashId "salt" "x") "x" (by decide) (by decide)⟩

/-- Claim C9: of the routes the `auth` group registers, the three
without a `:token` segment do not match `tokenPaths`, so the middleware
calls the inner handler unconditionally for every token/remainder; the
four download routes do match; and the unauthorized branch is reachable
only on a route matching `tokenPaths`. -/
theorem tokenGate_scope (md5hex : String → String) (salt token rest : String) :
    tokenGateAllows md5hex salt "/auth/build/:build_id" token rest = true
    ∧ tokenGateAllows md5hex salt "/auth/builds/*" token rest = true
    ∧ tokenGateAllows md5hex salt "/auth/artifacts/:build_id" token rest = true
    ∧ tokenPathsMatch "/auth/ipa/build/:token/*" = true
    ∧ tokenPathsMatch "/auth/dmg/build/:token/*" = true
    ∧ tokenPathsMatch "/auth/apk/build/:token/*" = true
    ∧ tokenPathsMatch "/auth/itms/release/:token/*" = true
    ∧ (∀ route : String, tokenGateAllows md5hex salt route token rest = false →
        tokenPathsMatch route = true) := by
  refine ⟨?_, ?_, ?_, by decide, by decide, by decide, by decide, ?_⟩
  · unfold tokenGateAllows
    rw [if_neg (by decide : ¬ tokenPathsMatch "/auth/build/:build_id" = true)]
  · unfold tokenGateAllows
    rw [if_neg (by decide : ¬ tokenPathsMatch "/auth/builds/*" = true)]
  · unfold tokenGateAllows
    rw [if_neg (by decide : ¬ tokenPathsMatch "/auth/artifacts/:build_id" = true)]
  · intro route h
    by_cases hm : tokenPathsMatch route = true
    · exact hm
    · exfalso
      unfold tokenGateAllows at h
      rw [if_neg hm] at h
      cases h

theorem tokenGate_scope_witness :
    tokenGateAllows hashId "salt" "/auth/build/:build_id" "tkn" "rest" = true :=
  (tokenGate_scope hashId "salt" "tkn" "rest").1

/-- The RNG draw stream that always returns rune 0 — one possible
outcome of `rand.Intn(len(letterRunes))` for a whole process. -/
def picksZero : Nat → Fin letterRunes.length := fun _ => ⟨0, by decide⟩

/-- The RNG draw stream that always returns rune 1. -/
def picksOne : Nat → Fin letterRunes.length := fun _ => ⟨1, by decide⟩

/-- The salt of a first server instance whose ten draws were all 0. -/
def saltInstanceA : String := newServerSalt picksZero

/-- The salt of a second (post-restart) server instance whose ten
draws were also all 0 — a possible, if improbable, outcome of the
independent RNG. -/
def saltInstanceB : String := newServerSalt picksZero

/-- Claim C10, counterexample. Two process instances can draw the same
10-letter salt ("aaaaaaaaaa" here), and then a token issued by the
first instance verifies at the second: "every token issued by a
previous process instance fails verification after a restart" does not
hold of the code, which makes the salts independent random draws with
no guarantee of difference. -/
theorem restart_same_draws_old_token_verifies :
    saltInstanceA = "aaaaaaaaaa"
    ∧ saltInstanceB = "aaaaaaaaaa"
    ∧ tokenGateAllows hashId saltInstanceB "/auth/ipa/build/:token/*"
        (getHash hashId saltInstanceA "file") "file" = true :=
  ⟨by decide, by decide, by decide⟩

/-- Claim C10, amended: the salt is a 10-letter string drawn from
`letterRunes` at construction (and, the embedding being pure, `getHash`
is a deterministic function of the path for a fixed instance); a token
issued by a previous instance fails verification after a restart
whenever the new instance's digest of the path differs from the old
one's — in particular whenever the salts differ and the digest
separates the two inputs — but not unconditionally (see the
counterexample for coinciding draws). -/
theorem salt_fresh_and_cross_instance_reject
    (picks picks2 : Nat → Fin letterRunes.length) (md5hex : String → String)
    (p route : String)
    (hmatch : tokenPathsMatch route = true)
    (hdiff : md5hex (p ++ newServerSalt picks) ≠ md5hex (p ++ newServerSalt picks2)) :
    (newServerSalt picks).length = 10
    ∧ (∀ ch ∈ (newServerSalt picks).toList, ch ∈ letterRunes)
    ∧ tokenGateAllows md5hex (newServerSalt picks2) route
        (getHash md5hex (newServerSalt picks) p) p = false := by
  refine ⟨?_, ?_, ?_⟩
  · show (randStringRunes picks 10).length = 10
    unfold randStringRunes
    simp [String.length]
  · intro ch hch
    unfold newServerSalt randStringRunes at hch
    simp only [String.toList] at hch
    rcases List.mem_map.mp hch with ⟨i, _, rfl⟩
    exact List.get_mem letterRunes (picks i).1 (picks i).2
  · unfold tokenGateAllows
    rw [if_pos hmatch]
    have hbeq : (getHash md5hex (newServerSalt picks2) p
        == getHash md5hex (newServerSalt picks) p) = false := by
      rw [beq_eq_false_iff_ne]
      unfold getHash
      exact fun hcontra => hdiff hcontra.symm
    rw [hbeq, Bool.and_false]

theorem salt_fresh_and_cross_instance_reject_witness :
    (tokenPathsMatch "/auth/ipa/build/:token/*" = true
      ∧ hashId ("file" ++ newServerSalt picksZero)
          ≠ hashId ("file" ++ newServerSalt picksOne))
    ∧ ((newServerSalt picksZero).length = 10
      ∧ (∀ ch ∈ (newServerSalt picksZero).toList, ch ∈ letterRunes)
      ∧ tokenGateAllows hashId (newServerSalt picksOne) "/auth/ipa/build/:token/*"
          (getHash hashId (newServerSalt picksZero) "file") "file" = false) :=
  ⟨⟨by decide, by decide⟩,
    salt_fresh_and_cross_instance_reject picksZero picksOne hashId "file"
      "/auth/ipa/build/:token/*" (by decide) (by decide)⟩

end ReleaseServer

namespace Yolosvc

/-- Claim C8: the driver dispatch always either streams through the
matched backend or returns a caller-visible error, and the errors are
distinguished — a recognized driver with an unconfigured client
(Buildkite with `svc.bkc == nil`) yields the unconfigured-backend
error, a driver matching no configured backend yields the distinct
unsupported-driver error, and the two labels differ; success is
reported only when the matched backend's streamer itself succeeded, so
the dispatcher never reports success without having invoked a backend
stream. -/
theorem artifactDownloader_dispatch (bkcConfigured : Bool)
    (bkFetch btFetch : String → Except String Unit) (a : Yolopb.Artifact) :
    (a.driver = Yolopb.Driver.buildkite → bkcConfigured = false →
      ArtifactDownloader bkcConfigured bkFetch btFetch a
        = Except.error "buildkite token required")
    ∧ (a.driver ≠ Yolopb.Driver.buildkite → a.driver ≠ Yolopb.Driver.bintray →
      ArtifactDownloader bkcConfigured bkFetch btFetch a
        = Except.error "download not supported for this driver")
    ∧ ("buildkite token required" ≠ "download not supported for this driver")
    ∧ (∀ d, ArtifactDownloader bkcConfigured bkFetch btFetch a = Except.ok d →
        (d = Yolopb.Driver.buildkite ∧ bkcConfigured = true
          ∧ bkFetch a.downloadURL = Except.ok ())
        ∨ (d = Yolopb.Driver.bintray ∧ btFetch a.downloadURL = Except.ok ())) := by
  refine ⟨?_, ?_, by decide, ?_⟩
  · intro hd hbk
    unfold ArtifactDownloader
    rw [hd, hbk]
    rfl
  · intro h1 h2
    unfold ArtifactDownloader
    cases hd : a.driver with
    | buildkite => exact absurd hd h1
    | bintray => exact absurd hd h2
    | unknownDriver => rfl
    | circleci => rfl
  · intro d hok
    unfold ArtifactDownloader at hok
    cases hd : a.driver with
    | unknownDriver =>
      rw [hd] at hok
      cases hok
    | circleci =>
      rw [hd] at hok
      cases hok
    | buildkite =>
      rw [hd] at hok
      cases hbk : bkcConfigured with
      | false =>
        rw [hbk] at hok
        cases hok
      | true =>
        rw [hbk] at hok
        cases hbf : bkFetch a.downloadURL with
        | error e =>
          rw [hbf] at hok
          simp only [if_true] at hok
          cases hok
        | ok u =>
          rw [hbf] at hok
          simp only [if_true] at hok
          cases u
          left
          refine ⟨?_, rfl, rfl⟩
          injection hok with h
          exact h.symm
    | bintray =>
      rw [hd] at hok
      cases hbf : btFetch a.downloadURL with
      | error e =>
        rw [hbf] at hok
        cases hok
      | ok u =>
        rw [hbf] at hok
        cases u
        right
        refine ⟨?_, rfl⟩
        injection hok with h
        exact h.symm

/-- A Buildkite-hosted artifact for the dispatcher witness. -/
def bkArtifact : Yolopb.Artifact :=
  ⟨1, Yolopb.Driver.buildkite, "bk-url", "ipa/app.ipa", 3, "application/zip", ""⟩

theorem artifactDownloader_dispatch_witness :
    ArtifactDownloader false (fun _ => Except.ok ()) (fun _ => Except.ok ()) bkArtifact
      = Except.error "buildkite token required" :=
  (artifactDownloader_dispatch false (fun _ => Except.ok ())
    (fun _ => Except.ok ()) bkArtifact).1 rfl rfl

end Yolosvc
